import Mathlib

/-!
Verification of the journal versioning / visibility model and the image
store of the profile-api service.  Definitions are shallow embeddings of
the Go source (`src/journal/journal.go`, `src/auth/auth.go`,
`src/profile/image_store_local.go`, the S3 image store and the data
model files).  Timestamps are modelled as opaque strings (the public
listing compares creation dates as strings), machine integers as `Int`,
the Mongo collection as a list of documents, and the gin request context
as an association list of keys.
-/

namespace ProfileApi

/-- A timestamp.  `time.Now()` values are passed in explicitly as
parameters of the operations. -/
abbrev Time := String

/-- Model of `auth.User` (src/auth/model.go). -/
structure User where
  id : String
  name : String
  email : String
  password : String
  deriving Repr, DecidableEq

/-- Model of `journal.Taxonomy` (journal data model). -/
structure Taxonomy where
  categories : List String
  subcategories : List String
  topics : List String
  tags : List String
  deriving Repr, DecidableEq

/-- Model of `journal.Entry` (journal data model): one versioned revision. -/
structure Entry where
  version : Int
  title : String
  content : String
  attachments : List String
  updatedAt : Time
  deriving Repr, DecidableEq

/-- Model of `journal.JournalEntry` (journal data model): the aggregate root. -/
structure JournalEntry where
  journalID : String
  userID : String
  version : Int
  entries : List Entry
  status : String
  taxonomy : Taxonomy
  summary : String
  createdAt : Time
  updatedAt : Time
  deriving Repr, DecidableEq

/-- The error taxonomy of the handlers.  `invalidVersion` is the HTTP 400
response with body "Version not found" issued by `SetJournalVersion`. -/
inductive ApiError where
  | unauthorized
  | badRequest
  | notFound
  | invalidVersion
  | internal
  deriving Repr, DecidableEq

/-- The `{journal_id: jid, user_id: uid}` Mongo filter used by every
owner-scoped journal operation. -/
def ownerFilter (jid uid : String) (j : JournalEntry) : Bool :=
  j.journalID == jid && j.userID == uid

/-- Model of `FindOne`: the first document of the collection matching the filter. -/
def findOne (store : List JournalEntry) (p : JournalEntry → Bool) :
    Option JournalEntry :=
  store.find? p

/-- Model of `UpdateOne` with a `$set` update: rewrites the first matching document
with `f` and leaves the rest of the collection unchanged. -/
def updateOne : List JournalEntry → (JournalEntry → Bool) →
    (JournalEntry → JournalEntry) → List JournalEntry
  | [], _, _ => []
  | j :: rest, p, f =>
    if p j then f j :: rest else j :: updateOne rest p f

/-- Model of `DeleteOne`: removes the first matching document, if any. -/
def deleteOne (store : List JournalEntry) (p : JournalEntry → Bool) :
    List JournalEntry :=
  store.eraseP p

/-- Model of `CreateJournalEntry` (journal.go): requires an authenticated user,
then stores `{journalID := fresh id, userID := user, version := 1,
entries := [payload], status := "pending", createdAt/updatedAt := now}`.
The bound payload is stored verbatim — its `version` and `updatedAt`
fields are whatever the request body carried.  Taxonomy and summary are
left at their zero values. -/
def CreateJournalEntry (user : Option User) (newEntry : Entry)
    (newID : String) (now : Time) : Except ApiError JournalEntry :=
  match user with
  | none => .error .unauthorized
  | some u =>
    .ok { journalID := newID
          userID := u.id
          version := 1
          entries := [newEntry]
          status := "pending"
          taxonomy := ⟨[], [], [], []⟩
          summary := ""
          createdAt := now
          updatedAt := now }

/-- The aggregate-level effect of `UpdateJournalEntry` (journal.go) once
the document has been loaded: the new entry version is
`journal.Version + 1` (the current-pointer version plus one), the payload
is stamped with it and with `now`, appended to `entries`, and the pointer
and `updatedAt` are refreshed. -/
def UpdateJournalEntry (journal : JournalEntry) (updatedEntry : Entry)
    (now : Time) : JournalEntry :=
  let stamped := { updatedEntry with version := journal.version + 1
                                     updatedAt := now }
  { journal with entries := journal.entries ++ [stamped]
                 version := journal.version + 1
                 updatedAt := now }

/-- Model of `UpdateJournalEntry` at the store level: `FindOne` on the owner
filter (404 when absent), then `UpdateOne` writing back the recomputed
`entries`, `version` and `updated_at`. -/
def UpdateJournalEntryStore (store : List JournalEntry)
    (jid uid : String) (updatedEntry : Entry) (now : Time) :
    Except ApiError JournalEntry × List JournalEntry :=
  match findOne store (ownerFilter jid uid) with
  | none => (.error .notFound, store)
  | some journal =>
    let j := UpdateJournalEntry journal updatedEntry now
    (.ok j,
     updateOne store (ownerFilter jid uid)
       (fun d => { d with entries := j.entries
                          version := j.version
                          updatedAt := j.updatedAt }))

/-- A sequence of sequential appends against one aggregate, each with its
payload and its wall-clock instant. -/
def appendEntries (journal : JournalEntry) (ps : List (Entry × Time)) :
    JournalEntry :=
  ps.foldl (fun acc pt => UpdateJournalEntry acc pt.1 pt.2) journal

/-- Model of `SetJournalVersion` (journal.go), aggregate level: scans `entries`
for the requested version; on a hit repoints `version` and refreshes
`updatedAt`, otherwise answers 400 "Version not found". -/
def SetJournalVersion (journal : JournalEntry) (target : Int)
    (now : Time) : Except ApiError JournalEntry :=
  if journal.entries.any (fun e => e.version == target) then
    .ok { journal with version := target, updatedAt := now }
  else
    .error .invalidVersion

/-- Model of `SetJournalVersion` at the store level: load by owner filter, branch
as above, and on success `UpdateOne` with `$set {version, updated_at}`.
On any failure no update is issued, so the collection is returned
untouched. -/
def SetJournalVersionStore (store : List JournalEntry)
    (jid uid : String) (target : Int) (now : Time) :
    Except ApiError JournalEntry × List JournalEntry :=
  match findOne store (ownerFilter jid uid) with
  | none => (.error .notFound, store)
  | some journal =>
    match SetJournalVersion journal target now with
    | .error e => (.error e, store)
    | .ok j =>
      (.ok j,
       updateOne store (ownerFilter jid uid)
         (fun d => { d with version := j.version
                            updatedAt := j.updatedAt }))

/-- The `$set {status, updated_at}` document written by
`SetJournalStatus` (journal.go), applied to one aggregate.  Any status
string is accepted; no other field appears in the update. -/
def setStatusUpdate (j : JournalEntry) (status : String) (now : Time) :
    JournalEntry :=
  { j with status := status, updatedAt := now }

/-- Model of `SetJournalStatus` at the store level: a single unconditional
`UpdateOne` on the owner filter with `$set {status, updated_at}`. -/
def SetJournalStatusStore (store : List JournalEntry)
    (jid uid status : String) (now : Time) :
    Except ApiError String × List JournalEntry :=
  (.ok "Journal status updated",
   updateOne store (ownerFilter jid uid) (fun d => setStatusUpdate d status now))

/-- Model of `ProcessJournalEntry` at the store level: `UpdateOne` on the owner
filter with `$set {status: "processing"}` (no timestamp refresh). -/
def ProcessJournalEntryStore (store : List JournalEntry)
    (jid uid : String) : Except ApiError String × List JournalEntry :=
  (.ok "Journal entry is being processed",
   updateOne store (ownerFilter jid uid) (fun d => { d with status := "processing" }))

/-- Model of `DeleteJournalEntry` at the store level: one `DeleteOne` on the owner
filter.  The handler reports success whether or not a document matched. -/
def DeleteJournalEntryStore (store : List JournalEntry)
    (jid uid : String) : Except ApiError String × List JournalEntry :=
  (.ok "Journal entry deleted", deleteOne store (ownerFilter jid uid))

/-- The response body of `GetJournalEntry` when a `"user"` value is in
the request context: createdAt, updatedAt, version, status, userID, the
whole `entries` sequence, taxonomy and summary. -/
structure FullJournalView where
  createdAt : Time
  updatedAt : Time
  version : Int
  status : String
  userID : String
  entries : List Entry
  taxonomy : Taxonomy
  summary : String
  deriving Repr, DecidableEq

/-- The response body of `GetJournalEntry` for an anonymous request:
journalID, userID, version, status, taxonomy, summary, and an `entries`
array holding at most the last-appended entry. -/
structure PublicJournalView where
  journalID : String
  userID : String
  version : Int
  status : String
  taxonomy : Taxonomy
  summary : String
  entries : List Entry
  deriving Repr, DecidableEq

/-- The two response shapes of `GetJournalEntry`. -/
inductive JournalReadResponse where
  | full (v : FullJournalView)
  | reduced (v : PublicJournalView)
  deriving Repr, DecidableEq

/-- Model of `GetJournalEntry` (journal.go): `FindOne` by `journal_id` alone (404
when absent); with a `"user"` context value the full aggregate view is
returned, otherwise the reduced view whose `entries` is
`[entries[len-1]]` (empty when the aggregate has no entries) — the entry
selected is the last appended one, not the one the `version` pointer
targets. -/
def GetJournalEntry (store : List JournalEntry) (jid : String)
    (user : Option User) : Except ApiError JournalReadResponse :=
  match findOne store (fun j => j.journalID == jid) with
  | none => .error .notFound
  | some journal =>
    match user with
    | some _ =>
      .ok (.full { createdAt := journal.createdAt
                   updatedAt := journal.updatedAt
                   version := journal.version
                   status := journal.status
                   userID := journal.userID
                   entries := journal.entries
                   taxonomy := journal.taxonomy
                   summary := journal.summary })
    | none =>
      let latestEntry :=
        match journal.entries.getLast? with
        | some e => [e]
        | none => []
      .ok (.reduced { journalID := journal.journalID
                      userID := journal.userID
                      version := journal.version
                      status := journal.status
                      taxonomy := journal.taxonomy
                      summary := journal.summary
                      entries := latestEntry })

/-- The Mongo filter built by `GetPublicJournals` (journal.go):
`status == "public"` always, the creation-date range only when both
bounds are supplied (compared as strings), each taxonomy parameter as
array membership when non-empty, and the owning user when non-empty. -/
def publicFilterMatches (startDate endDate category subcategory topic tag
    user : String) (j : JournalEntry) : Bool :=
  j.status == "public"
  && (if startDate != "" && endDate != "" then
        decide (startDate ≤ j.createdAt) && decide (j.createdAt ≤ endDate)
      else true)
  && (category == "" || j.taxonomy.categories.contains category)
  && (subcategory == "" || j.taxonomy.subcategories.contains subcategory)
  && (topic == "" || j.taxonomy.topics.contains topic)
  && (tag == "" || j.taxonomy.tags.contains tag)
  && (user == "" || j.userID == user)

/-- Model of `GetPublicJournals` (journal.go): `Find` with the filter above. -/
def GetPublicJournals (store : List JournalEntry)
    (startDate endDate category subcategory topic tag user : String) :
    List JournalEntry :=
  store.filter (publicFilterMatches startDate endDate category subcategory topic tag user)

/-- A value stored in the gin request context: the auth middleware
stores a `User`, the identifier middleware stores a string. -/
inductive CtxVal where
  | user (u : User)
  | str (s : String)
  deriving Repr, DecidableEq

/-- The gin request context: keys set so far, most recent first. -/
abbrev Ctx := List (String × CtxVal)

/-- Model of `c.Set(key, v)`: later sets shadow earlier ones. -/
def ctxSet (ctx : Ctx) (key : String) (v : CtxVal) : Ctx :=
  (key, v) :: ctx

/-- Model of `c.Get(key)`: the most recently set value, when the key exists. -/
def ctxGet (ctx : Ctx) (key : String) : Option CtxVal :=
  (ctx.find? (fun p => p.1 == key)).map (fun p => p.2)

/-- Model of `c.MustGet(key).(string)`: `none` models the panic that aborts the
request before the handler body runs (missing key, or a non-string
value). -/
def mustGetString (ctx : Ctx) (key : String) : Option String :=
  match ctxGet ctx key with
  | some (.str s) => some s
  | _ => none

/-- The outcome of a middleware: either the request is aborted or it
proceeds with the accumulated context. -/
inductive AuthOutcome where
  | abort
  | proceed (ctx : Ctx)
  deriving Repr, DecidableEq

/-- Model of `extractIdentifierMiddleware` (main.go): stores the subdomain or
email under `"identifier"` when one is found. -/
def extractIdentifierMiddleware (identifier : Option String) (ctx : Ctx) :
    Ctx :=
  match identifier with
  | some s => ctxSet ctx "identifier" (.str s)
  | none => ctx

/-- Model of `AuthMiddleware` (src/auth/auth.go).  The cookie / token-signature /
user-lookup chain is summarised by `auth : Option User`: each of the
three failure points aborts a required-auth route and merely skips ahead
on an optional one.  On success the middleware stores the resolved user
under the single key `"user"` — no other key (in particular no
`"userID"`) is ever set. -/
def AuthMiddleware (required : Bool) (auth : Option User) (ctx : Ctx) :
    AuthOutcome :=
  match auth with
  | none => if required then .abort else .proceed ctx
  | some u => .proceed (ctxSet ctx "user" (.user u))

/-- The middleware chain in front of every protected journal route
(gin default middlewares set no context keys): the identifier
middleware, then the required-auth middleware. -/
def protectedJournalCtx (identifier : Option String) (auth : Option User) :
    AuthOutcome :=
  AuthMiddleware true auth (extractIdentifierMiddleware identifier [])

/-- The `UpdateJournalEntry` handler as routed: it first evaluates
`c.MustGet("userID").(string)`; `none` is the panic path, in which the
store is never touched. -/
def UpdateJournalEntryHandler (ctx : Ctx) (store : List JournalEntry)
    (jid : String) (updatedEntry : Entry) (now : Time) :
    Option (Except ApiError JournalEntry × List JournalEntry) :=
  (mustGetString ctx "userID").map
    (fun uid => UpdateJournalEntryStore store jid uid updatedEntry now)

/-- The `ProcessJournalEntry` handler as routed. -/
def ProcessJournalEntryHandler (ctx : Ctx) (store : List JournalEntry)
    (jid : String) : Option (Except ApiError String × List JournalEntry) :=
  (mustGetString ctx "userID").map
    (fun uid => ProcessJournalEntryStore store jid uid)

/-- The `SetJournalVersion` handler as routed. -/
def SetJournalVersionHandler (ctx : Ctx) (store : List JournalEntry)
    (jid : String) (target : Int) (now : Time) :
    Option (Except ApiError JournalEntry × List JournalEntry) :=
  (mustGetString ctx "userID").map
    (fun uid => SetJournalVersionStore store jid uid target now)

/-- The `SetJournalStatus` handler as routed. -/
def SetJournalStatusHandler (ctx : Ctx) (store : List JournalEntry)
    (jid status : String) (now : Time) :
    Option (Except ApiError String × List JournalEntry) :=
  (mustGetString ctx "userID").map
    (fun uid => SetJournalStatusStore store jid uid status now)

/-- The `DeleteJournalEntry` handler as routed. -/
def DeleteJournalEntryHandler (ctx : Ctx) (store : List JournalEntry)
    (jid : String) : Option (Except ApiError String × List JournalEntry) :=
  (mustGetString ctx "userID").map
    (fun uid => DeleteJournalEntryStore store jid uid)

/-- An image blob (byte sequence). -/
abbrev Blob := List Nat

/-- The persistent state of an image backend: stored blobs keyed by
their native key (a filesystem path for the local store, an object key
for S3).  Writing is `putBlob`, reading back is `lookupBlob`; a later
write to the same key shadows the earlier one, which models both
`os.Create` truncating an existing file and `PutObject` replacing an
existing object. -/
abbrev ImgState := List (String × Blob)

/-- Write (create/overwrite) a blob under a key. -/
def putBlob (st : ImgState) (key : String) (b : Blob) : ImgState :=
  (key, b) :: st

/-- Read the blob currently stored under a key. -/
def lookupBlob (st : ImgState) (key : String) : Option Blob :=
  (st.find? (fun p => p.1 == key)).map (fun p => p.2)

/-- Model of `filepath.Join` of two non-empty clean components. -/
def joinPath (a b : String) : String := a ++ "/" ++ b

/-- Model of `LocalImageStore.SaveImage` (image_store_local.go): writes the blob
to `{basePath}/{userID}-{filename}` and returns the URL
`/images/{userID}-{filename}`. -/
def LocalSaveImage (basePath : String) (fs : ImgState)
    (userID filename : String) (file : Blob) : ImgState × String :=
  let imageName := userID ++ "-" ++ filename
  let imagePath := joinPath basePath imageName
  (putBlob fs imagePath file, "/images/" ++ imageName)

/-- Model of `strings.Replace(s, pat, rep, 1)` on character lists (first
occurrence only). -/
def replaceFirstAux (pat rep : List Char) : List Char → List Char
  | [] => []
  | c :: cs =>
    if pat.isPrefixOf (c :: cs) then rep ++ (c :: cs).drop pat.length
    else c :: replaceFirstAux pat rep cs

/-- Model of `strings.Replace(s, pat, rep, 1)` (called with the non-empty pattern
"localstack"). -/
def replaceFirst (s pat rep : String) : String :=
  ⟨replaceFirstAux pat.data rep.data s.data⟩

/-- Model of `strings.Contains` on character lists. -/
def containsAux (pat : List Char) : List Char → Bool
  | [] => pat.isEmpty
  | c :: cs => pat.isPrefixOf (c :: cs) || containsAux pat cs

/-- Model of `strings.Contains`. -/
def containsSub (s pat : String) : Bool :=
  containsAux pat.data s.data

/-- The environment the S3 store reads: `AWS_S3_ENDPOINT`,
`AWS_REGION`, and the bucket name (empty string for an unset
variable). -/
structure S3Config where
  endpoint : String
  region : String
  bucket : String
  deriving Repr, DecidableEq

/-- Model of `S3ImageStore.SaveImage` (S3 image store): uploads the blob under
the object key `{userID}-{filename}` and returns either
`{endpoint}/{bucket}/{key}` (with "localstack" rewritten to "localhost"
in the endpoint) or
`https://{bucket}.s3.{region}.amazonaws.com/{key}`. -/
def S3SaveImage (cfg : S3Config) (objects : ImgState)
    (userID filename : String) (file : Blob) : ImgState × String :=
  let imageName := userID ++ "-" ++ filename
  let stored := putBlob objects imageName file
  let imageURL :=
    if cfg.endpoint != "" then
      let publicEndpoint :=
        if containsSub cfg.endpoint "localstack" then
          replaceFirst cfg.endpoint "localstack" "localhost"
        else cfg.endpoint
      publicEndpoint ++ "/" ++ cfg.bucket ++ "/" ++ imageName
    else
      "https://" ++ cfg.bucket ++ ".s3." ++ cfg.region ++ ".amazonaws.com/" ++ imageName
  (stored, imageURL)

/-- The type of a `SaveImage` implementation over the backend state. -/
abbrev ImageSaveFn := ImgState → String → String → Blob → ImgState × String

/-- Modelled from the spec (image store contract,
`store(ownerID, filename, binaryStream) -> URL`): the blob is persisted
under the deterministic key `{ownerID}-{filename}` (mapped to the
backend native key space by `nativeKey`), the returned URL ends in
that key, and a second store of the same (ownerID, filename) pair
silently overwrites the first blob. -/
def SatisfiesImageStoreContract (save : ImageSaveFn)
    (nativeKey : String → String) : Prop :=
  ∀ (st : ImgState) (owner filename : String) (blob : Blob),
    lookupBlob (save st owner filename blob).1
        (nativeKey (owner ++ "-" ++ filename)) = some blob
    ∧ (∃ p, (save st owner filename blob).2 = p ++ (owner ++ "-" ++ filename))
    ∧ ∀ blob2 : Blob,
        lookupBlob (save (save st owner filename blob).1 owner filename blob2).1
          (nativeKey (owner ++ "-" ++ filename)) = some blob2

/-- The entries a run of sequential appends adds when it starts from
current-pointer version `v`: the k-th payload is stamped with version
`v + k + 1` and its wall-clock instant. -/
def stampList (v : Int) : List (Entry × Time) → List Entry
  | [] => []
  | pt :: rest =>
    { pt.1 with version := v + 1, updatedAt := pt.2 } :: stampList (v + 1) rest

/-- Sample identity used to instantiate the theorems below. -/
def sampleUser : User :=
  { id := "user-1", name := "Ada", email := "ada@example.com", password := "pw" }

/-- Sample taxonomy. -/
def sampleTaxonomy : Taxonomy :=
  { categories := ["cat"], subcategories := ["sub"], topics := ["top"], tags := ["tag"] }

/-- A sample entry revision carrying a given version number. -/
def entryV (v : Int) (title : String) : Entry :=
  { version := v, title := title, content := "content", attachments := [], updatedAt := "t0" }

/-- A sample stored aggregate with three entry revisions (versions 1, 2,
3) whose current-version pointer targets version 1. -/
def sampleJournal : JournalEntry :=
  { journalID := "j1"
    userID := "user-1"
    version := 1
    entries := [entryV 1 "Day 1", entryV 2 "Day 2", entryV 3 "Day 3"]
    status := "public"
    taxonomy := sampleTaxonomy
    summary := "a summary"
    createdAt := "2024-01-01"
    updatedAt := "2024-01-02" }

theorem stampList_length (ps : List (Entry × Time)) :
    ∀ v : Int, (stampList v ps).length = ps.length := by
  induction ps with
  | nil => intro v; rfl
  | cons pt rest ih => intro v; simp [stampList, ih]

theorem stampList_get (ps : List (Entry × Time)) :
    ∀ (v : Int) (i : Nat) (h : i < (stampList v ps).length),
      ((stampList v ps).get ⟨i, h⟩).version = v + i + 1 := by
  induction ps with
  | nil => intro v i h; simp [stampList] at h
  | cons pt rest ih =>
    intro v i h
    cases i with
    | zero => simp [stampList]
    | succ k =>
      have hk : k < (stampList (v + 1) rest).length := by
        simpa [stampList] using h
      have ihk := ih (v + 1) k hk
      have hstep : (stampList v (pt :: rest)).get ⟨k + 1, h⟩ =
          (stampList (v + 1) rest).get ⟨k, hk⟩ := rfl
      rw [hstep, ihk]
      push_cast
      ring

theorem appendEntries_spec (ps : List (Entry × Time)) :
    ∀ j : JournalEntry,
      (appendEntries j ps).entries = j.entries ++ stampList j.version ps ∧
      (appendEntries j ps).version = j.version + ps.length := by
  induction ps with
  | nil => intro j; simp [appendEntries, stampList]
  | cons pt rest ih =>
    intro j
    have step : appendEntries j (pt :: rest) =
        appendEntries (UpdateJournalEntry j pt.1 pt.2) rest := rfl
    obtain ⟨he, hv⟩ := ih (UpdateJournalEntry j pt.1 pt.2)
    constructor
    · rw [step, he]
      simp [UpdateJournalEntry, stampList]
    · rw [step, hv]
      simp only [UpdateJournalEntry, List.length_cons]
      push_cast
      ring

/-- Claim C1 (amended): starting from a creation whose payload carries
version 1, a sequence of N sequential appends with no intervening
set-current-version yields an `entries` list of length N+1 with
`entries[i].version = i+1` at every index; each append assigns the new
entry version as `JournalEntry.version + 1` — the current-pointer
version plus one, not the previous maximum entry version plus one. -/
theorem c1_sequential_append_versions (u : User) (payload : Entry)
    (newID : String) (t0 : Time) (ps : List (Entry × Time))
    (j0 : JournalEntry) (hpv : payload.version = 1)
    (hc : CreateJournalEntry (some u) payload newID t0 = .ok j0) :
    (appendEntries j0 ps).entries.length = ps.length + 1 ∧
    ∀ (i : Nat) (h : i < (appendEntries j0 ps).entries.length),
      ((appendEntries j0 ps).entries.get ⟨i, h⟩).version = (i : Int) + 1 := by
  have hj : j0 =
      { journalID := newID, userID := u.id, version := 1,
        entries := [payload], status := "pending",
        taxonomy := ⟨[], [], [], []⟩, summary := "",
        createdAt := t0, updatedAt := t0 } := by
    have := hc
    simp only [CreateJournalEntry, Except.ok.injEq] at this
    exact this.symm
  obtain ⟨he, -⟩ := appendEntries_spec ps j0
  have he2 : (appendEntries j0 ps).entries = payload :: stampList 1 ps := by
    rw [he, hj]
    rfl
  constructor
  · rw [he2]
    simp [stampList_length]
  · intro i h
    have h2 : i < (payload :: stampList 1 ps).length := by rw [← he2]; exact h
    rw [List.get_of_eq he2 ⟨i, h⟩]
    cases i with
    | zero => simpa using hpv
    | succ k =>
      have hk : k < (stampList 1 ps).length := by simpa using h2
      have := stampList_get ps 1 k hk
      simp only [List.get, this]
      push_cast
      ring

/-- Claim C1 witness: creation with a version-1 payload followed by two
appends gives three entries with versions 1, 2, 3. -/
theorem c1_sequential_append_versions_witness :
    (appendEntries
        { journalID := "j1", userID := "user-1", version := 1,
          entries := [entryV 1 "Day 1"], status := "pending",
          taxonomy := ⟨[], [], [], []⟩, summary := "",
          createdAt := "t0", updatedAt := "t0" }
        [(entryV 0 "Day 2", "t1"), (entryV 0 "Day 3", "t2")]).entries.length = 3 := by
  have h := c1_sequential_append_versions sampleUser (entryV 1 "Day 1")
    "j1" "t0" [(entryV 0 "Day 2", "t1"), (entryV 0 "Day 3", "t2")]
    { journalID := "j1", userID := "user-1", version := 1,
      entries := [entryV 1 "Day 1"], status := "pending",
      taxonomy := ⟨[], [], [], []⟩, summary := "",
      createdAt := "t0", updatedAt := "t0" }
    (by rfl) (by rfl)
  exact h.1

/-- Claim C1 counterexample: the claim as stated fails on the code.
First scenario: create (payload version 1), append, set-current-version
back to 1, append — the second append stamps version
`journal.version + 1 = 2`, which is already used, so the entry versions
come out as [1, 2, 2] (reuse; the claimed value at index 2 is 3).
Second scenario: a create whose payload carries version 7 is stored
verbatim, so with N = 0 appends `entries[0].version = 7`, not 1. -/
theorem c1_counterexample :
    ((do
      let j0 ← CreateJournalEntry (some sampleUser) (entryV 1 "Day 1") "j1" "t0"
      let j1 := UpdateJournalEntry j0 (entryV 0 "Day 2") "t1"
      let j2 ← SetJournalVersion j1 1 "t2"
      let j3 := UpdateJournalEntry j2 (entryV 0 "Day 3") "t3"
      pure (j3.entries.map (fun e => e.version)) :
        Except ApiError (List Int)) = .ok [1, 2, 2]) ∧
    ((CreateJournalEntry (some sampleUser) (entryV 7 "Day 1") "j2" "t0").map
        (fun j => j.entries.map (fun e => e.version)) = .ok [7]) := by
  constructor
  · rfl
  · rfl

/-- Claim C2 (amended): a create with an authenticated identity stores and
returns an aggregate with `version = 1`, exactly the one payload entry
— stored verbatim, so `entries[0].version` and `entries[0].updatedAt`
are whatever the payload carried — `status = "pending"`, and
creation/update timestamps set to now; a create with no identity fails
with Unauthorized. -/
theorem c2_create_journal_entry (u : User) (payload : Entry)
    (newID : String) (now : Time) :
    CreateJournalEntry (some u) payload newID now =
      .ok { journalID := newID, userID := u.id, version := 1,
            entries := [payload], status := "pending",
            taxonomy := ⟨[], [], [], []⟩, summary := "",
            createdAt := now, updatedAt := now } ∧
    CreateJournalEntry none payload newID now = .error .unauthorized := by
  exact ⟨rfl, rfl⟩

/-- Claim C2 counterexample: the claim as stated fails on the code — the
payload entry is not restamped at creation, so a payload carrying
version 5 and timestamp "t-client" is stored with
`entries[0].version = 5 ≠ 1` and `entries[0].updatedAt = "t-client"`,
not the creation time "t-server". -/
theorem c2_counterexample :
    ((CreateJournalEntry (some sampleUser)
        { version := 5, title := "Day 1", content := "c",
          attachments := [], updatedAt := "t-client" }
        "j1" "t-server").map
      (fun j => j.entries.map (fun e => (e.version, e.updatedAt))) =
      .ok [(5, "t-client")]) ∧
    (5 : Int) ≠ 1 ∧ "t-client" ≠ "t-server" := by
  refine ⟨rfl, by decide, by decide⟩

/-- Claim C3: for every authenticated request that passes the middleware
chain in front of the protected journal routes, the context holds only
the `"user"` (and possibly `"identifier"`) keys — never `"userID"` — so
the mandatory `MustGet("userID")` lookup in every owner-mutation handler
(append/update, process, set-current-version, set-status, delete) fails
and the handler aborts before performing its store operation. -/
theorem c3_userID_context_key_never_set (identifier : Option String)
    (u : User) (store : List JournalEntry) (jid status : String)
    (payload : Entry) (target : Int) (now : Time) :
    ∃ ctx : Ctx,
      protectedJournalCtx identifier (some u) = .proceed ctx ∧
      ctxGet ctx "userID" = none ∧
      UpdateJournalEntryHandler ctx store jid payload now = none ∧
      ProcessJournalEntryHandler ctx store jid = none ∧
      SetJournalVersionHandler ctx store jid target now = none ∧
      SetJournalStatusHandler ctx store jid status now = none ∧
      DeleteJournalEntryHandler ctx store jid = none := by
  refine ⟨ctxSet (extractIdentifierMiddleware identifier []) "user" (.user u),
    rfl, ?_, ?_, ?_, ?_, ?_, ?_⟩ <;> cases identifier <;> rfl

/-- Claim C4: a single-journal read carrying a resolved identity (any
authenticated identity, not only the owner) answers the full aggregate:
all metadata plus the entire `entries` sequence, the taxonomy and the
summary. -/
theorem c4_authenticated_read_full_aggregate (store : List JournalEntry)
    (jid : String) (u : User) (journal : JournalEntry)
    (hf : findOne store (fun j => j.journalID == jid) = some journal) :
    GetJournalEntry store jid (some u) =
      .ok (.full { createdAt := journal.createdAt
                   updatedAt := journal.updatedAt
                   version := journal.version
                   status := journal.status
                   userID := journal.userID
                   entries := journal.entries
                   taxonomy := journal.taxonomy
                   summary := journal.summary }) := by
  simp [GetJournalEntry, hf]

/-- Claim C4 witness: an authenticated read of the sample journal returns
all three entries. -/
theorem c4_authenticated_read_full_aggregate_witness :
    GetJournalEntry [sampleJournal] "j1" (some sampleUser) =
      .ok (.full { createdAt := "2024-01-01"
                   updatedAt := "2024-01-02"
                   version := 1
                   status := "public"
                   userID := "user-1"
                   entries := [entryV 1 "Day 1", entryV 2 "Day 2", entryV 3 "Day 3"]
                   taxonomy := sampleTaxonomy
                   summary := "a summary" }) := by
  exact c4_authenticated_read_full_aggregate [sampleJournal] "j1" sampleUser
    sampleJournal rfl

/-- Claim C5: a single-journal read with no resolved identity answers the
reduced projection whose one-element `entries` holds exactly the
last-appended entry `entries[len-1]`, not the entry the `version`
pointer targets, alongside the aggregate metadata, taxonomy and
summary. -/
theorem c5_anonymous_read_last_appended (store : List JournalEntry)
    (jid : String) (journal : JournalEntry) (e : Entry)
    (hf : findOne store (fun j => j.journalID == jid) = some journal)
    (hl : journal.entries.getLast? = some e) :
    GetJournalEntry store jid none =
      .ok (.reduced { journalID := journal.journalID
                      userID := journal.userID
                      version := journal.version
                      status := journal.status
                      taxonomy := journal.taxonomy
                      summary := journal.summary
                      entries := [e] }) := by
  simp [GetJournalEntry, hf, hl]

/-- Claim C5 witness: the sample journal has entries v1, v2, v3 and
pointer `version = 1`; the anonymous read returns v3 (last appended),
not v1 (pointer target). -/
theorem c5_anonymous_read_last_appended_witness :
    sampleJournal.version = 1 ∧
    GetJournalEntry [sampleJournal] "j1" none =
      .ok (.reduced { journalID := "j1"
                      userID := "user-1"
                      version := 1
                      status := "public"
                      taxonomy := sampleTaxonomy
                      summary := "a summary"
                      entries := [entryV 3 "Day 3"] }) := by
  exact ⟨rfl, c5_anonymous_read_last_appended [sampleJournal] "j1"
    sampleJournal (entryV 3 "Day 3") rfl rfl⟩

theorem findOne_updateOne (store : List JournalEntry)
    (p : JournalEntry → Bool) (f : JournalEntry → JournalEntry)
    (hp : ∀ d, p (f d) = p d) :
    findOne (updateOne store p f) p = (findOne store p).map f := by
  induction store with
  | nil => rfl
  | cons j rest ih =>
    by_cases h : p j = true
    · simp [updateOne, findOne, h, hp j, List.find?_cons_of_pos]
    · have hb : p j = false := by simpa using h
      simpa [updateOne, findOne, hb, List.find?_cons_of_neg] using ih

/-- Claim C6: set-current-version to a target version absent from
`entries` fails with InvalidVersion (HTTP 400, "Version not found") and
leaves the stored collection — hence the aggregate, its `version` and
its `updatedAt` — entirely unchanged; a present target repoints
`version` and refreshes `updatedAt`. -/
theorem c6_set_version_guard (store : List JournalEntry)
    (jid uid : String) (target : Int) (now : Time) (journal : JournalEntry)
    (hf : findOne store (ownerFilter jid uid) = some journal) :
    ((∀ e ∈ journal.entries, e.version ≠ target) →
      SetJournalVersionStore store jid uid target now =
        (.error .invalidVersion, store)) ∧
    ((∃ e ∈ journal.entries, e.version = target) →
      SetJournalVersionStore store jid uid target now =
        (.ok { journal with version := target, updatedAt := now },
         updateOne store (ownerFilter jid uid)
           (fun d => { d with version := target, updatedAt := now })) ∧
      findOne (updateOne store (ownerFilter jid uid)
          (fun d => { d with version := target, updatedAt := now }))
          (ownerFilter jid uid) =
        some { journal with version := target, updatedAt := now }) := by
  constructor
  · intro hne
    have hany : journal.entries.any (fun e => e.version == target) = false := by
      rw [Bool.eq_false_iff]
      intro hcon
      obtain ⟨e, he, hv⟩ := List.any_eq_true.mp hcon
      exact hne e he (by simpa using hv)
    simp [SetJournalVersionStore, hf, SetJournalVersion, hany]
  · rintro ⟨e, he, hv⟩
    have hany : journal.entries.any (fun e => e.version == target) = true :=
      List.any_eq_true.mpr ⟨e, he, by simp [hv]⟩
    refine ⟨?_, ?_⟩
    · simp [SetJournalVersionStore, hf, SetJournalVersion, hany]
    · rw [findOne_updateOne store (ownerFilter jid uid)
        (fun d => { d with version := target, updatedAt := now })
        (fun d => rfl), hf]
      rfl

/-- Claim C6 witness: on the sample journal (entry versions 1, 2, 3),
target 99 fails with InvalidVersion and leaves the store unchanged,
while target 2 repoints the version pointer. -/
theorem c6_set_version_guard_witness :
    SetJournalVersionStore [sampleJournal] "j1" "user-1" 99 "t9" =
      (.error .invalidVersion, [sampleJournal]) ∧
    (SetJournalVersionStore [sampleJournal] "j1" "user-1" 2 "t9").1 =
      .ok { sampleJournal with version := 2, updatedAt := "t9" } := by
  have h1 := c6_set_version_guard [sampleJournal] "j1" "user-1" 99 "t9"
    sampleJournal rfl
  have h2 := c6_set_version_guard [sampleJournal] "j1" "user-1" 2 "t9"
    sampleJournal rfl
  refine ⟨h1.1 (by decide), ?_⟩
  have := (h2.2 ⟨entryV 2 "Day 2", by decide, rfl⟩).1
  rw [this]

/-- Claim C7: every aggregate in the public listing has
`status == "public"`, for every store state and every combination of
the start/end/category/subcategory/topic/tag/user filters. -/
theorem c7_public_listing_only_public (store : List JournalEntry)
    (startDate endDate category subcategory topic tag user : String) :
    (GetPublicJournals store startDate endDate category subcategory
        topic tag user).all (fun j => j.status == "public") = true := by
  simp only [GetPublicJournals, List.all_eq_true]
  intro j hj
  have h := (List.mem_filter.mp hj).2
  simp only [publicFilterMatches, Bool.and_eq_true] at h
  exact h.1.1.1.1.1.1

/-- Claim C8: delete always reports success ("Journal entry deleted", no
NotFound); when the `{journalID, userID}` filter matches nothing the
collection is unchanged, and when it matches the matched aggregate is
removed outright (hard delete). -/
theorem c8_delete_soft_failure (store : List JournalEntry)
    (jid uid : String) :
    (DeleteJournalEntryStore store jid uid).1 = .ok "Journal entry deleted" ∧
    ((∀ j ∈ store, ownerFilter jid uid j = false) →
      (DeleteJournalEntryStore store jid uid).2 = store) ∧
    (∀ j ∈ store, ownerFilter jid uid j = true →
      ∃ jm l1 l2, (∀ b ∈ l1, ownerFilter jid uid b = false) ∧
        ownerFilter jid uid jm = true ∧ store = l1 ++ jm :: l2 ∧
        (DeleteJournalEntryStore store jid uid).2 = l1 ++ l2) := by
  refine ⟨rfl, ?_, ?_⟩
  · intro hne
    simp only [DeleteJournalEntryStore, deleteOne]
    exact List.eraseP_of_forall_not (fun a ha => by simp [hne a ha])
  · intro j hj hpj
    obtain ⟨a, l1, l2, h1, h2, h3, h4⟩ := List.exists_of_eraseP hj hpj
    exact ⟨a, l1, l2, fun b hb => by simpa using h1 b hb, h2, h3, h4⟩

/-- Claim C8 witness: deleting a non-existent journal id from the sample
store succeeds and leaves the store unchanged; a matching delete also
reports success. -/
theorem c8_delete_soft_failure_witness :
    (DeleteJournalEntryStore [sampleJournal] "nope" "user-1").2 = [sampleJournal] ∧
    (DeleteJournalEntryStore [sampleJournal] "j1" "user-1").1 =
      .ok "Journal entry deleted" := by
  exact ⟨(c8_delete_soft_failure [sampleJournal] "nope" "user-1").2.1 (by decide),
    (c8_delete_soft_failure [sampleJournal] "j1" "user-1").1⟩

/-- Claim C9: set-status accepts any status string with no vocabulary or
transition check, overwrites `status`, refreshes `updatedAt`, and
modifies nothing else — journalID, userID, version, entries, taxonomy,
summary and createdAt are unchanged; at the store level it is exactly
one update with that document. -/
theorem c9_set_status_frame (j : JournalEntry) (status : String)
    (now : Time) (store : List JournalEntry) (jid uid : String) :
    (setStatusUpdate j status now).status = status ∧
    (setStatusUpdate j status now).updatedAt = now ∧
    (setStatusUpdate j status now).journalID = j.journalID ∧
    (setStatusUpdate j status now).userID = j.userID ∧
    (setStatusUpdate j status now).version = j.version ∧
    (setStatusUpdate j status now).entries = j.entries ∧
    (setStatusUpdate j status now).taxonomy = j.taxonomy ∧
    (setStatusUpdate j status now).summary = j.summary ∧
    (setStatusUpdate j status now).createdAt = j.createdAt ∧
    SetJournalStatusStore store jid uid status now =
      (.ok "Journal status updated",
       updateOne store (ownerFilter jid uid)
         (fun d => setStatusUpdate d status now)) := by
  exact ⟨rfl, rfl, rfl, rfl, rfl, rfl, rfl, rfl, rfl, rfl⟩

/-- Claim C10: both image store implementations satisfy the contract
modelled from the spec: the blob is persisted under the deterministic
key `{ownerID}-{filename}` (under the base path for the local store, as
the object key for S3), the returned URL ends in that key, and a second
store of the same pair silently overwrites the first blob. -/
theorem c10_image_stores_same_contract (basePath : String) (cfg : S3Config) :
    SatisfiesImageStoreContract (LocalSaveImage basePath) (joinPath basePath) ∧
    SatisfiesImageStoreContract (S3SaveImage cfg) id := by
  constructor
  · intro st owner filename blob
    refine ⟨?_, ⟨"/images/", rfl⟩, ?_⟩
    · simp [LocalSaveImage, lookupBlob, putBlob]
    · intro blob2
      simp [LocalSaveImage, lookupBlob, putBlob]
  · intro st owner filename blob
    refine ⟨?_, ?_, ?_⟩
    · simp [S3SaveImage, lookupBlob, putBlob]
    · cases hb : (cfg.endpoint != "") with
      | true =>
        simp only [S3SaveImage, hb, if_true]
        exact ⟨_, rfl⟩
      | false =>
        simp only [S3SaveImage, hb, if_false]
        exact ⟨_, rfl⟩
    · intro blob2
      simp [S3SaveImage, lookupBlob, putBlob]

end ProfileApi
